import Mathlib

/-!
# Campus Shield — verification of the route-handler behaviour of `app.py`

Shallow embedding of the Flask application `src/app.py`: the four ORM
models (`User`, `Complaint`, `Poll`, `Vote`), the database state, and the
route handlers `register`, `login`, `complaint` (POST), `polls` (POST) and
`poll_results` that the specification's claims discuss.

Modelling conventions:
* The SQLite database is a record of lists (rows in insertion order, as
  `query.all()` / `first()` return them) together with the next
  auto-increment primary key for each table.
* `bcrypt.generate_password_hash` / `bcrypt.check_password_hash` are
  opaque to the application; they appear as function parameters
  `hash : String → String` and `check : String → String → Bool`.
* Form data read with `request.form.get(k)` is an `Option String`
  (absent field ↦ `none`); data read with `request.form[k]` aborts the
  request with 400 before any state change when absent, so it appears as
  a plain `String` parameter.
* SQLAlchemy applies a column's Python-side `default` at flush time
  whenever the attribute is `None` (explicitly assigned `None` included),
  so the persisted `severity` is `form.severity.getD "Medium"`, the
  persisted `status` is `"Pending"` and `date` is the flush-time clock
  (a `Nat` parameter `now`).
* `Complaint.subject` has `nullable=False` and no default: committing a
  complaint whose `subject` field was absent raises `IntegrityError`, the
  request fails with 500 and no row is stored; the handlers below return
  `none` in that case.
* The filesystem under `static/` is an association list `path ↦ content`;
  `file.save` prepends (an existing entry is shadowed, i.e. overwritten).
* The outcome of the one fallible external call, `mail.send`, is the
  Boolean parameter `emailOk`. The e-mail body itself leaves the system
  and is not part of the observable state.
-/

namespace CampusShield

/-- ORM model `User` (`app.py` lines 89–93). -/
structure User where
  id : Nat
  name : String
  email : String
  password : String
deriving Repr, DecidableEq

/-- ORM model `Complaint` (`app.py` lines 96–105).  `date` is the flush
timestamp, abstracted to a `Nat`. -/
structure Complaint where
  id : Nat
  student_id : Option Nat
  subject : String
  severity : String
  details : String
  anonymous : Bool
  proof_file : Option String
  status : String
  date : Nat
deriving Repr, DecidableEq

/-- ORM model `Poll` (`app.py` lines 108–114). -/
structure Poll where
  id : Nat
  question : String
  option1 : String
  option2 : String
  option3 : String
  option4 : String
deriving Repr, DecidableEq

/-- ORM model `Vote` (`app.py` lines 117–121). -/
structure Vote where
  id : Nat
  poll_id : Nat
  option : String
  user_id : Option Nat
deriving Repr, DecidableEq

/-- The SQLite database: rows of each table in insertion order plus the
next auto-increment id of each table. -/
structure DB where
  users : List User
  complaints : List Complaint
  polls : List Poll
  votes : List Vote
  nextUserId : Nat
  nextComplaintId : Nat
  nextPollId : Nat
  nextVoteId : Nat
deriving Repr, DecidableEq

/-- Where a handler sends the browser next: a redirect to a URL or a
rendered template. -/
inductive Page where
  | redirect (url : String)
  | render (template : String)
deriving Repr, DecidableEq

/-- A flashed message: text and category, as produced by `flash(msg, cat)`. -/
abbrev Flash := String × String

/-- Result of the `register` POST handler. -/
structure RegisterRes where
  db : DB
  flashes : List Flash
  page : Page
deriving Repr, DecidableEq

/-- `register` POST handler (`app.py` lines 143–158).  `hash` is
`bcrypt.generate_password_hash`; the hash is computed before the
duplicate check, exactly as in the source. -/
def register (hash : String → String) (db : DB)
    (name email password : String) : RegisterRes :=
  let pwHash := hash password
  match db.users.find? (fun u => u.email == email) with
  | some _ =>
      { db := db
        flashes := [("Email already registered!", "danger")]
        page := .redirect "/register" }
  | none =>
      let newUser : User :=
        { id := db.nextUserId, name := name, email := email, password := pwHash }
      { db := { db with users := db.users ++ [newUser],
                        nextUserId := db.nextUserId + 1 }
        flashes := [("Registration successful. Please login.", "success")]
        page := .redirect "/login" }

/-- Result of the `login` POST handler: the session after the request
(`some uid` iff that user is logged in) plus the observable response. -/
structure LoginRes where
  session : Option Nat
  flashes : List Flash
  page : Page
deriving Repr, DecidableEq

/-- `login` POST handler (`app.py` lines 166–180).  `check` is
`bcrypt.check_password_hash (storedHash) (candidate)`; `session` is the
session before the request (`login_user` is only called on success, so on
failure the session is returned unchanged). -/
def login (check : String → String → Bool) (db : DB) (session : Option Nat)
    (email password : String) : LoginRes :=
  match db.users.find? (fun u => u.email == email) with
  | some u =>
      if check u.password password then
        { session := some u.id
          flashes := [("Login successful!", "success")]
          page := .redirect "/awareness" }
      else
        { session := session
          flashes := [("Invalid email or password", "danger")]
          page := .render "login.html" }
  | none =>
      { session := session
        flashes := [("Invalid email or password", "danger")]
        page := .render "login.html" }

/-- A file in `request.files`: the client-supplied filename and the
uploaded bytes. -/
structure UploadedFile where
  filename : String
  content : String
deriving Repr, DecidableEq

/-- The complaint form as the handler reads it (`app.py` lines 198–207):
`subject`/`severity`/`anonymous` via `request.form.get` (absent ↦ `none`),
`details` via `request.form["details"]` (absent ↦ 400 before any state
change, hence a plain `String` here), and the optional entry of
`request.files["proof_file"]`. -/
structure ComplaintForm where
  subject : Option String
  severity : Option String
  details : String
  anonymous : Option String
  proof_file : Option UploadedFile
deriving Repr, DecidableEq

/-- Python truthiness of `request.form.get("anonymous")` as used by
`bool(request.form.get("anonymous"))`: `bool(None) = bool("") = False`,
any other string is `True`. -/
def truthy : Option String → Bool
  | none => false
  | some s => s != ""

/-- The filesystem under the application directory: `path ↦ content`,
later writes shadowing earlier ones. -/
abbrev FS := List (String × String)

/-- The persistence stage of the `complaint` POST handler (`app.py` lines
203–222): save the upload (if any), build the `Complaint` row and commit
it.  Runs strictly before the e-mail attempt.  Returns `none` when the
commit raises `IntegrityError` because `subject` was absent
(`nullable=False`, no default); in that error case the request dies with
500 and the already-written upload file is irrelevant to every claim, so
it is not tracked.  `uid` is `current_user.id`, `now` the flush clock. -/
def complaintPersist (db : DB) (fs : FS) (uid : Nat)
    (form : ComplaintForm) (now : Nat) : Option (DB × FS × Complaint) :=
  let anonymous := truthy form.anonymous
  let fileStep : Option String × FS :=
    match form.proof_file with
    | some f =>
        if f.filename != "" then
          (some ("uploads/" ++ f.filename),
           ("static/uploads/" ++ f.filename, f.content) :: fs)
        else (none, fs)
    | none => (none, fs)
  match form.subject with
  | none => none
  | some subj =>
      let c : Complaint :=
        { id := db.nextComplaintId
          student_id := if anonymous then none else some uid
          subject := subj
          severity := form.severity.getD "Medium"
          details := form.details
          anonymous := anonymous
          proof_file := fileStep.1
          status := "Pending"
          date := now }
      some ({ db with complaints := db.complaints ++ [c],
                      nextComplaintId := db.nextComplaintId + 1 },
            fileStep.2, c)

/-- Result of the `complaint` POST handler. -/
structure ComplaintRes where
  db : DB
  fs : FS
  flashes : List Flash
  page : Page
deriving Repr, DecidableEq

/-- `complaint` POST handler (`app.py` lines 197–260): persist, then
attempt the admin e-mail inside `try/except`.  `emailOk` is whether
`mail.send` succeeds; either way the handler redirects to the tracking
view of the new complaint.  The e-mail body (which also uses
`current_user.name`) leaves the system and is not modelled. -/
def complaintPost (db : DB) (fs : FS) (uid : Nat) (form : ComplaintForm)
    (emailOk : Bool) (now : Nat) : Option ComplaintRes :=
  match complaintPersist db fs uid form now with
  | none => none
  | some (db', fs', c) =>
      if emailOk then
        some { db := db', fs := fs'
               flashes := [("✅ Complaint submitted and email sent to Admin!",
                            "success")]
               page := .redirect ("/track/" ++ toString c.id) }
      else
        some { db := db', fs := fs'
               flashes := [("⚠️ Complaint #" ++ toString c.id ++
                            " saved successfully, but email notification failed. Admin will still review it.",
                            "warning")]
               page := .redirect ("/track/" ++ toString c.id) }

/-- The sample poll inserted lazily by the `polls` handler (`app.py`
lines 306–312). -/
def samplePoll (id : Nat) : Poll :=
  { id := id
    question := "Should strict action be taken against ragging?"
    option1 := "Yes, strict punishment"
    option2 := "No, only counseling"
    option3 := "Maybe, depends on severity"
    option4 := "Not sure" }

/-- Lazy sample-poll creation at the top of the `polls` handler
(`app.py` lines 303–315): if no poll exists, insert the sample poll. -/
def ensureSamplePoll (db : DB) : DB :=
  if db.polls.isEmpty then
    { db with polls := db.polls ++ [samplePoll db.nextPollId],
              nextPollId := db.nextPollId + 1 }
  else db

/-- Result of the `polls` POST handler. -/
structure PollsRes where
  db : DB
  flashes : List Flash
  page : Page
deriving Repr, DecidableEq

/-- `polls` POST handler (`app.py` lines 302–332): after the lazy sample
creation, look for an existing vote by `(poll_id, user_id)`; reject a
duplicate, otherwise insert the vote with the submitted option stored
verbatim.  Either way redirect to the poll's results page. -/
def pollsPost (db : DB) (uid : Nat) (poll_id : Nat) (option : String) :
    PollsRes :=
  let db := ensureSamplePoll db
  match db.votes.find? (fun v => v.poll_id == poll_id &&
                                 v.user_id == some uid) with
  | some _ =>
      { db := db
        flashes := [("⚠️ You already voted!", "warning")]
        page := .redirect ("/polls/" ++ toString poll_id ++ "/results") }
  | none =>
      let v : Vote :=
        { id := db.nextVoteId, poll_id := poll_id, option := option,
          user_id := some uid }
      { db := { db with votes := db.votes ++ [v],
                        nextVoteId := db.nextVoteId + 1 }
        flashes := [("✅ Vote recorded!", "success")]
        page := .redirect ("/polls/" ++ toString poll_id ++ "/results") }

/-- The four option strings of a poll, in declaration order. -/
def pollOptions (p : Poll) : List String :=
  [p.option1, p.option2, p.option3, p.option4]

/-- One step of building a Python dict literal: add key `k` with value
`0` unless `k` is already a key (a repeated key keeps a single entry). -/
def dictInsert (d : List (String × Nat)) (k : String) : List (String × Nat) :=
  if d.any (fun p => p.1 == k) then d else d ++ [(k, 0)]

/-- The Python dict literal `{option1: 0, option2: 0, option3: 0,
option4: 0}`: entries in insertion order, repeated keys collapsed. -/
def dictInit (keys : List String) : List (String × Nat) :=
  keys.foldl dictInsert []

/-- `if v.option in results: results[v.option] += 1` — increment the entry
with key `k` when present, leave the dict unchanged when absent.  (The
dicts built by `dictInit` have pairwise-distinct keys, so at most one
entry changes.) -/
def dictIncr (d : List (String × Nat)) (k : String) : List (String × Nat) :=
  d.map (fun p => if p.1 == k then (p.1, p.2 + 1) else p)

/-- The tally loop of `poll_results` (`app.py` lines 344–346). -/
def tally (votes : List Vote) (d : List (String × Nat)) :
    List (String × Nat) :=
  votes.foldl (fun d v => dictIncr d v.option) d

/-- `poll_results` view (`app.py` lines 337–348): 404 when the poll does
not exist, otherwise render the poll together with the per-option counts
over the stored votes for that poll. -/
def poll_results (db : DB) (poll_id : Nat) :
    Option (Poll × List (String × Nat)) :=
  match db.polls.find? (fun p => p.id == poll_id) with
  | none => none
  | some poll =>
      let votes := db.votes.filter (fun v => v.poll_id == poll_id)
      some (poll, tally votes (dictInit (pollOptions poll)))

/-- Count reported by the results dict for key `k` (`results[k]`). -/
def dictGet (d : List (String × Nat)) (k : String) : Option Nat :=
  (d.find? (fun p => p.1 == k)).map (fun p => p.2)

/-- Sum of all counts shown by the results dict. -/
def dictSum (d : List (String × Nat)) : Nat :=
  (d.map (fun p => p.2)).sum

/-! ### Concrete fixtures used by witnesses and counterexamples -/

/-- A freshly-created database (`db.create_all()` on an empty file). -/
def emptyDB : DB :=
  { users := [], complaints := [], polls := [], votes := [],
    nextUserId := 1, nextComplaintId := 1, nextPollId := 1, nextVoteId := 1 }

/-- A registered user. -/
def userAlice : User :=
  { id := 1, name := "Alice", email := "alice@campus.edu", password := "pw" }

/-- A database holding exactly `userAlice`. -/
def dbAlice : DB := { emptyDB with users := [userAlice], nextUserId := 2 }

/-- A four-option poll. -/
def pollOne : Poll :=
  { id := 1, question := "q?", option1 := "A", option2 := "B",
    option3 := "C", option4 := "D" }

/-- `dbAlice` plus `pollOne` and one of Alice's votes on it. -/
def dbVoted : DB :=
  { dbAlice with polls := [pollOne], nextPollId := 2,
                 votes := [{ id := 1, poll_id := 1, option := "A",
                             user_id := some 1 }],
                 nextVoteId := 2 }

/-- `dbAlice` plus `pollOne` and a single stored vote whose option `"E"`
matches none of the poll's four option strings. -/
def dbForeignVote : DB :=
  { dbAlice with polls := [pollOne], nextPollId := 2,
                 votes := [{ id := 1, poll_id := 1, option := "E",
                             user_id := some 1 }],
                 nextVoteId := 2 }

/-- A minimal well-formed complaint form: subject present, severity
field absent, no file, not anonymous. -/
def formBasic : ComplaintForm :=
  { subject := some "Ragging", severity := none, details := "It happened.",
    anonymous := none, proof_file := none }

/-- An anonymous complaint form carrying a file upload. -/
def formAnon : ComplaintForm :=
  { subject := some "Theft", severity := some "High", details := "Stolen.",
    anonymous := some "on",
    proof_file := some { filename := "evidence.png", content := "bytes" } }

/-!
## Theorems

Each claim `Cn` of the specification is settled by one theorem below
(plus a witness when the theorem carries hypotheses, and a counterexample
when the claim as stated fails on the code).
-/

/-! ### Helper lemmas: the lazy sample poll and the results dict -/

theorem ensureSamplePoll_votes (db : DB) :
    (ensureSamplePoll db).votes = db.votes := by
  unfold ensureSamplePoll
  split <;> rfl

theorem ensureSamplePoll_nextVoteId (db : DB) :
    (ensureSamplePoll db).nextVoteId = db.nextVoteId := by
  unfold ensureSamplePoll
  split <;> rfl

theorem dictIncr_keys (d : List (String × Nat)) (k : String) :
    (dictIncr d k).map Prod.fst = d.map Prod.fst := by
  unfold dictIncr
  rw [List.map_map]
  refine List.map_congr_left ?_
  intro p _
  simp only [Function.comp_apply]
  split <;> rfl

theorem tally_keys (votes : List Vote) (d : List (String × Nat)) :
    (tally votes d).map Prod.fst = d.map Prod.fst := by
  induction votes generalizing d with
  | nil => rfl
  | cons v votes ih =>
      rw [show tally (v :: votes) d = tally votes (dictIncr d v.option) from rfl,
          ih, dictIncr_keys]

theorem dictGet_isSome_iff (d : List (String × Nat)) (s : String) :
    (dictGet d s).isSome ↔ s ∈ d.map Prod.fst := by
  simp only [dictGet, Option.isSome_map', List.find?_isSome, List.mem_map,
             beq_iff_eq]

theorem dictIncr_not_mem (d : List (String × Nat)) (k : String)
    (h : k ∉ d.map Prod.fst) : dictIncr d k = d := by
  unfold dictIncr
  have hcong : ∀ p ∈ d, (if p.1 == k then (p.1, p.2 + 1) else p) = p := by
    intro p hp
    have hne : ¬ p.1 = k := fun he => h (List.mem_map.mpr ⟨p, hp, he⟩)
    simp [hne]
  rw [List.map_congr_left hcong]
  exact List.map_id' d

theorem dictGet_dictIncr (d : List (String × Nat)) (k s : String) :
    dictGet (dictIncr d k) s
      = (dictGet d s).map (fun n => if s = k then n + 1 else n) := by
  induction d with
  | nil => rfl
  | cons p d ih =>
      by_cases hk : (p.1 == k) = true
      · have hstep : dictIncr (p :: d) k = (p.1, p.2 + 1) :: dictIncr d k := by
          simp only [dictIncr, List.map_cons, if_pos hk]
        by_cases hs : (p.1 == s) = true
        · have h1 : List.find? (fun q => q.1 == s)
              ((p.1, p.2 + 1) :: dictIncr d k) = some (p.1, p.2 + 1) :=
            List.find?_cons_of_pos _ hs
          have h2 : List.find? (fun q => q.1 == s) (p :: d) = some p :=
            List.find?_cons_of_pos _ hs
          have hsk : s = k := by
            rw [← beq_iff_eq.mp hs, beq_iff_eq.mp hk]
          rw [hstep]
          simp only [dictGet, h1, h2, Option.map_some']
          simp [hsk]
        · have h1 : List.find? (fun q => q.1 == s)
              ((p.1, p.2 + 1) :: dictIncr d k)
                = List.find? (fun q => q.1 == s) (dictIncr d k) :=
            List.find?_cons_of_neg _ hs
          have h2 : List.find? (fun q => q.1 == s) (p :: d)
              = List.find? (fun q => q.1 == s) d :=
            List.find?_cons_of_neg _ hs
          simp only [hstep, dictGet, h1, h2]
          exact ih
      · have hstep : dictIncr (p :: d) k = p :: dictIncr d k := by
          simp only [dictIncr, List.map_cons, if_neg hk]
        by_cases hs : (p.1 == s) = true
        · have h1 : List.find? (fun q => q.1 == s) (p :: dictIncr d k)
              = some p := List.find?_cons_of_pos _ hs
          have h2 : List.find? (fun q => q.1 == s) (p :: d) = some p :=
            List.find?_cons_of_pos _ hs
          have hsk : ¬ s = k := by
            intro he
            exact hk (beq_iff_eq.mpr (by rw [beq_iff_eq.mp hs, he]))
          simp [hstep, dictGet, h1, h2, hsk]
        · have h1 : List.find? (fun q => q.1 == s) (p :: dictIncr d k)
              = List.find? (fun q => q.1 == s) (dictIncr d k) :=
            List.find?_cons_of_neg _ hs
          have h2 : List.find? (fun q => q.1 == s) (p :: d)
              = List.find? (fun q => q.1 == s) d :=
            List.find?_cons_of_neg _ hs
          simp only [hstep, dictGet, h1, h2]
          exact ih

theorem dictGet_tally (votes : List Vote) (d : List (String × Nat))
    (s : String) :
    dictGet (tally votes d) s
      = (dictGet d s).map
          (fun n => n + (votes.filter (fun v => v.option == s)).length) := by
  induction votes generalizing d with
  | nil =>
      cases h : dictGet d s <;> simp [tally, h]
  | cons v votes ih =>
      rw [show tally (v :: votes) d = tally votes (dictIncr d v.option) from rfl,
          ih, dictGet_dictIncr]
      cases h : dictGet d s with
      | none => simp
      | some n =>
          by_cases hv : v.option = s
          · subst hv
            simp [List.filter_cons]
            omega
          · have : ¬ s = v.option := fun he => hv he.symm
            simp [List.filter_cons, this, hv]

theorem foldl_dictInsert_some (keys : List String)
    (acc : List (String × Nat)) (s : String) (n : Nat)
    (h : dictGet acc s = some n) :
    dictGet (keys.foldl dictInsert acc) s = some n := by
  induction keys generalizing acc with
  | nil => simpa using h
  | cons k keys ih =>
      rw [List.foldl_cons]
      apply ih
      unfold dictInsert
      split
      · exact h
      · simp only [dictGet, List.find?_append] at h ⊢
        cases hf : acc.find? (fun p => p.1 == s) with
        | none => rw [hf] at h; simp at h
        | some q =>
            rw [hf] at h
            simpa [Option.or] using h

theorem foldl_dictInsert_none (keys : List String)
    (acc : List (String × Nat)) (s : String)
    (h : dictGet acc s = none) :
    dictGet (keys.foldl dictInsert acc) s
      = if s ∈ keys then some 0 else none := by
  have hfind : acc.find? (fun p => p.1 == s) = none := by
    simpa [dictGet] using h
  induction keys generalizing acc with
  | nil => simpa using h
  | cons k keys ih =>
      rw [List.foldl_cons]
      by_cases hsk : s = k
      · subst hsk
        have hany : acc.any (fun p => p.1 == s) = false := by
          rw [List.any_eq_false]
          intro p hp
          exact List.find?_eq_none.mp hfind p hp
        have hins : dictInsert acc s = acc ++ [(s, 0)] := by
          unfold dictInsert
          rw [hany]
          simp
        rw [hins, foldl_dictInsert_some keys (acc ++ [(s, 0)]) s 0 ?_]
        · simp
        · simp [dictGet, List.find?_append, hfind, Option.or]
      · have hd : dictGet (dictInsert acc k) s = none := by
          unfold dictInsert
          split
          · exact h
          · have hks : ((k : String) == s) = false := by
              simp only [beq_eq_false_iff_ne, ne_eq]
              exact fun he => hsk he.symm
            have h1 : List.find? (fun p : String × Nat => p.1 == s) [(k, 0)]
                = none := by
              simp [List.find?_cons, hks]
            simp [dictGet, List.find?_append, hfind, h1, Option.or]
        rw [ih _ hd (by simpa [dictGet] using hd)]
        simp [List.mem_cons, hsk]

theorem dictInit_get (keys : List String) (s : String) :
    dictGet (dictInit keys) s = if s ∈ keys then some 0 else none :=
  foldl_dictInsert_none keys [] s rfl

theorem mem_dictInit_keys (keys : List String) (s : String) :
    s ∈ (dictInit keys).map Prod.fst ↔ s ∈ keys := by
  rw [← dictGet_isSome_iff, dictInit_get]
  by_cases h : s ∈ keys <;> simp [h]

theorem foldl_dictInsert_keys_nodup (keys : List String)
    (acc : List (String × Nat)) (h : (acc.map Prod.fst).Nodup) :
    ((keys.foldl dictInsert acc).map Prod.fst).Nodup := by
  induction keys generalizing acc with
  | nil => simpa using h
  | cons k keys ih =>
      rw [List.foldl_cons]
      apply ih
      unfold dictInsert
      split
      · exact h
      · rename_i hany
        rw [List.map_append, List.nodup_append]
        refine ⟨h, by simp, ?_⟩
        intro a ha hb
        have hak : a = k := by simpa using hb
        subst hak
        apply hany
        rw [List.any_eq_true]
        obtain ⟨p, hp, hpk⟩ := List.mem_map.mp ha
        exact ⟨p, hp, by simp [hpk]⟩

theorem dictInit_keys_nodup (keys : List String) :
    ((dictInit keys).map Prod.fst).Nodup :=
  foldl_dictInsert_keys_nodup keys [] (by simp)

theorem countP_beq_of_nodup (l : List String) (x : String) (h : l.Nodup) :
    l.countP (fun s => s == x) = if x ∈ l then 1 else 0 := by
  by_cases hm : x ∈ l
  · rw [if_pos hm]
    exact List.count_eq_one_of_mem h hm
  · rw [if_neg hm]
    exact List.count_eq_zero_of_not_mem hm

theorem dictSum_dictIncr (d : List (String × Nat)) (k : String) :
    dictSum (dictIncr d k) = dictSum d + d.countP (fun p => p.1 == k) := by
  induction d with
  | nil => rfl
  | cons p d ih =>
      by_cases h : (p.1 == k) = true
      · have hstep : dictIncr (p :: d) k = (p.1, p.2 + 1) :: dictIncr d k := by
          simp only [dictIncr, List.map_cons, if_pos h]
        rw [hstep, List.countP_cons, if_pos h]
        simp only [dictSum, List.map_cons, List.sum_cons] at ih ⊢
        omega
      · have hstep : dictIncr (p :: d) k = p :: dictIncr d k := by
          simp only [dictIncr, List.map_cons, if_neg h]
        rw [hstep, List.countP_cons, if_neg h]
        simp only [dictSum, List.map_cons, List.sum_cons] at ih ⊢
        omega

theorem dictSum_tally (votes : List Vote) (d : List (String × Nat))
    (hnd : (d.map Prod.fst).Nodup) :
    dictSum (tally votes d)
      = dictSum d
        + (votes.filter (fun v => decide (v.option ∈ d.map Prod.fst))).length := by
  induction votes generalizing d with
  | nil => simp [tally]
  | cons v votes ih =>
      rw [show tally (v :: votes) d = tally votes (dictIncr d v.option) from rfl,
          ih (dictIncr d v.option) (by rw [dictIncr_keys]; exact hnd)]
      simp only [dictIncr_keys]
      rw [dictSum_dictIncr]
      have hcount : d.countP (fun p => p.1 == v.option)
          = if v.option ∈ d.map Prod.fst then 1 else 0 := by
        rw [show d.countP (fun p => p.1 == v.option)
              = (d.map Prod.fst).countP (fun s => s == v.option) from by
            rw [List.countP_map]; rfl]
        exact countP_beq_of_nodup _ _ hnd
      rw [hcount, List.filter_cons]
      by_cases hm : v.option ∈ d.map Prod.fst <;> simp [hm] <;> omega

/-- **C5.** A registration whose email is already stored is rejected —
the database is unchanged and the response redirects back to the
registration page — while a registration with a fresh email appends
exactly one new `User` row carrying that email. -/
theorem register_email_unique (hash : String → String) (db : DB)
    (name email password : String) :
    ((∃ u ∈ db.users, u.email = email) →
       (register hash db name email password).db = db ∧
       (register hash db name email password).page = .redirect "/register") ∧
    ((∀ u ∈ db.users, u.email ≠ email) →
       (register hash db name email password).db.users
         = db.users ++ [{ id := db.nextUserId, name := name, email := email,
                          password := hash password }]) := by
  constructor
  · rintro ⟨u, hu, he⟩
    have hfind : (db.users.find? (fun u => u.email == email)).isSome := by
      rw [List.find?_isSome]
      exact ⟨u, hu, by simp [he]⟩
    obtain ⟨u', hu'⟩ := Option.isSome_iff_exists.mp hfind
    simp [register, hu']
  · intro h
    have hfind : db.users.find? (fun u => u.email == email) = none := by
      rw [List.find?_eq_none]
      intro x hx
      simp [h x hx]
    simp [register, hfind]

/-- Witness for C5: in `dbAlice`, re-registering `alice@campus.edu`
leaves the database unchanged and bounces back to `/register`, while
registering a fresh email appends exactly that one user row. -/
theorem register_email_unique_witness :
    ((register id dbAlice "Bob" "alice@campus.edu" "x").db = dbAlice ∧
     (register id dbAlice "Bob" "alice@campus.edu" "x").page
       = .redirect "/register") ∧
    (register id dbAlice "Bob" "bob@campus.edu" "x").db.users
      = dbAlice.users ++ [{ id := 2, name := "Bob", email := "bob@campus.edu",
                            password := "x" }] :=
  ⟨(register_email_unique id dbAlice "Bob" "alice@campus.edu" "x").1
     ⟨userAlice, by decide, by decide⟩,
   (register_email_unique id dbAlice "Bob" "bob@campus.edu" "x").2
     (by decide)⟩

/-- **C6.** Login finds the stored user by email: when the submitted
password's bcrypt hash matches (in particular, when the submitted
password is exactly the one whose hash is stored), the session becomes
that user's id; when the bcrypt check fails, or no stored user has the
submitted email, the session is left unchanged — nobody is logged in. -/
theorem login_checks_password (hash : String → String)
    (check : String → String → Bool)
    (hbcrypt : ∀ s, check (hash s) s = true)
    (db : DB) (session : Option Nat) (email password : String) :
    (∀ u, db.users.find? (fun u => u.email == email) = some u →
       (u.password = hash password →
          (login check db session email password).session = some u.id) ∧
       (check u.password password = false →
          (login check db session email password).session = session)) ∧
    (db.users.find? (fun u => u.email == email) = none →
       (login check db session email password).session = session) := by
  constructor
  · intro u hu
    constructor
    · intro hpw
      simp [login, hu, hpw, hbcrypt]
    · intro hfail
      simp [login, hu, hfail]
  · intro hnone
    simp [login, hnone]

/-- Witness for C6: with `hash = id` and `check` plain string equality,
Alice logs in with her stored password, stays logged out on a wrong
password, and an unknown email logs nobody in. -/
theorem login_checks_password_witness :
    (login (fun h p => h == p) dbAlice none "alice@campus.edu" "pw").session
      = some 1 ∧
    (login (fun h p => h == p) dbAlice none "alice@campus.edu" "bad").session
      = none ∧
    (login (fun h p => h == p) dbAlice none "eve@campus.edu" "pw").session
      = none := by
  refine ⟨?_, ?_, ?_⟩
  · exact ((login_checks_password id (fun h p => h == p) (fun s => by simp)
      dbAlice none "alice@campus.edu" "pw").1 userAlice (by decide)).1 rfl
  · exact ((login_checks_password id (fun h p => h == p) (fun s => by simp)
      dbAlice none "alice@campus.edu" "bad").1 userAlice (by decide)).2
      (by decide)
  · exact (login_checks_password id (fun h p => h == p) (fun s => by simp)
      dbAlice none "eve@campus.edu" "pw").2 (by decide)

/-- **C10.** The two failure modes of login — email matching no stored
user, and email matching a stored user whose bcrypt check fails — produce
identical observable responses: the same single flashed message
`"Invalid email or password"` (category `danger`) and the same re-rendered
login page. -/
theorem login_failure_indistinguishable (check : String → String → Bool)
    (db₁ db₂ : DB) (s₁ s₂ : Option Nat) (e₁ p₁ e₂ p₂ : String) (u : User)
    (h₁ : db₁.users.find? (fun v => v.email == e₁) = none)
    (h₂ : db₂.users.find? (fun v => v.email == e₂) = some u)
    (h₃ : check u.password p₂ = false) :
    (login check db₁ s₁ e₁ p₁).flashes = (login check db₂ s₂ e₂ p₂).flashes ∧
    (login check db₁ s₁ e₁ p₁).page = (login check db₂ s₂ e₂ p₂).page ∧
    (login check db₁ s₁ e₁ p₁).flashes
      = [("Invalid email or password", "danger")] ∧
    (login check db₁ s₁ e₁ p₁).page = .render "login.html" := by
  simp [login, h₁, h₂, h₃]

/-- Witness for C10: an unknown email against the empty database and a
wrong password for Alice yield the very same flash and page. -/
theorem login_failure_indistinguishable_witness :
    (login (fun h p => h == p) emptyDB none "eve@campus.edu" "z").flashes
      = (login (fun h p => h == p) dbAlice none "alice@campus.edu" "bad").flashes ∧
    (login (fun h p => h == p) emptyDB none "eve@campus.edu" "z").page
      = (login (fun h p => h == p) dbAlice none "alice@campus.edu" "bad").page ∧
    (login (fun h p => h == p) emptyDB none "eve@campus.edu" "z").flashes
      = [("Invalid email or password", "danger")] ∧
    (login (fun h p => h == p) emptyDB none "eve@campus.edu" "z").page
      = .render "login.html" :=
  login_failure_indistinguishable (fun h p => h == p) emptyDB dbAlice
    none none "eve@campus.edu" "z" "alice@campus.edu" "bad" userAlice
    (by decide) (by decide) (by decide)

/-- **C1.** For a complaint submission that reaches the commit (its
`subject` field is present, so the `nullable=False` column is satisfied)
the handler completes for either outcome of the e-mail send, the stored
complaint list grows by exactly one row, the final database equals the
output of the persistence stage — which runs strictly before the e-mail
attempt — for both outcomes, and on e-mail failure the submitter gets a
single warning flash while still being redirected to the tracking page of
the new complaint. -/
theorem complaint_one_record_email_independent (db : DB) (fs : FS)
    (uid : Nat) (form : ComplaintForm) (now : Nat)
    (hsubj : form.subject.isSome) :
    ∃ rOk rFail : ComplaintRes,
      complaintPost db fs uid form true now = some rOk ∧
      complaintPost db fs uid form false now = some rFail ∧
      rOk.db = rFail.db ∧
      rOk.db.complaints.length = db.complaints.length + 1 ∧
      (∀ emailOk, (complaintPost db fs uid form emailOk now).map
          ComplaintRes.db
        = (complaintPersist db fs uid form now).map (fun t => t.1)) ∧
      (∃ msg, rFail.flashes = [(msg, "warning")]) ∧
      rFail.page = .redirect ("/track/" ++ toString db.nextComplaintId) := by
  obtain ⟨subj, hs⟩ := Option.isSome_iff_exists.mp hsubj
  simp only [complaintPost, complaintPersist, hs]
  refine ⟨_, _, rfl, rfl, rfl, by simp, ?_, ⟨_, rfl⟩, rfl⟩
  intro emailOk
  cases emailOk <;> simp

/-- Witness for C1: submitting `formBasic` to `dbAlice` behaves as C1
states for both e-mail outcomes. -/
theorem complaint_one_record_email_independent_witness :
    ∃ rOk rFail : ComplaintRes,
      complaintPost dbAlice [] 1 formBasic true 7 = some rOk ∧
      complaintPost dbAlice [] 1 formBasic false 7 = some rFail ∧
      rOk.db = rFail.db ∧
      rOk.db.complaints.length = dbAlice.complaints.length + 1 ∧
      (∀ emailOk, (complaintPost dbAlice [] 1 formBasic emailOk 7).map
          ComplaintRes.db
        = (complaintPersist dbAlice [] 1 formBasic 7).map (fun t => t.1)) ∧
      (∃ msg, rFail.flashes = [(msg, "warning")]) ∧
      rFail.page = .redirect ("/track/" ++ toString dbAlice.nextComplaintId) :=
  complaint_one_record_email_independent dbAlice [] 1 formBasic 7 (by decide)

/-- **C2.** The complaint row created by the handler has a null
`student_id` exactly when the anonymous flag is truthy; when it is not,
`student_id` is the authenticated session user's id. -/
theorem complaint_anonymous_iff_null_owner (db : DB) (fs : FS) (uid : Nat)
    (form : ComplaintForm) (emailOk : Bool) (now : Nat)
    (hsubj : form.subject.isSome) :
    ∃ (res : ComplaintRes) (c : Complaint),
      complaintPost db fs uid form emailOk now = some res ∧
      res.db.complaints = db.complaints ++ [c] ∧
      (c.student_id = none ↔ truthy form.anonymous = true) ∧
      (truthy form.anonymous = false → c.student_id = some uid) := by
  obtain ⟨subj, hs⟩ := Option.isSome_iff_exists.mp hsubj
  cases emailOk <;>
    (simp only [complaintPost, complaintPersist, hs]
     refine ⟨_, _, rfl, rfl, ?_, ?_⟩ <;>
       cases h : truthy form.anonymous <;> simp [h])

/-- Witness for C2: the anonymous form yields a row with no owner even
though Alice (id 1) holds the session; the non-anonymous form yields a
row owned by user 1. -/
theorem complaint_anonymous_iff_null_owner_witness :
    (∃ (res : ComplaintRes) (c : Complaint),
      complaintPost dbAlice [] 1 formAnon true 7 = some res ∧
      res.db.complaints = dbAlice.complaints ++ [c] ∧
      (c.student_id = none ↔ truthy formAnon.anonymous = true) ∧
      (truthy formAnon.anonymous = false → c.student_id = some 1)) ∧
    (∃ (res : ComplaintRes) (c : Complaint),
      complaintPost dbAlice [] 1 formBasic true 7 = some res ∧
      res.db.complaints = dbAlice.complaints ++ [c] ∧
      (c.student_id = none ↔ truthy formBasic.anonymous = true) ∧
      (truthy formBasic.anonymous = false → c.student_id = some 1)) :=
  ⟨complaint_anonymous_iff_null_owner dbAlice [] 1 formAnon true 7 (by decide),
   complaint_anonymous_iff_null_owner dbAlice [] 1 formBasic true 7 (by decide)⟩

/-- **C7.** When the severity form field is absent, the persisted
complaint row's severity is `"Medium"` (the column default applied at
flush). -/
theorem complaint_severity_defaults_medium (db : DB) (fs : FS) (uid : Nat)
    (form : ComplaintForm) (emailOk : Bool) (now : Nat)
    (hsubj : form.subject.isSome) (hsev : form.severity = none) :
    ∃ (res : ComplaintRes) (c : Complaint),
      complaintPost db fs uid form emailOk now = some res ∧
      res.db.complaints = db.complaints ++ [c] ∧
      c.severity = "Medium" := by
  obtain ⟨subj, hs⟩ := Option.isSome_iff_exists.mp hsubj
  cases emailOk <;>
    (simp only [complaintPost, complaintPersist, hs, hsev]
     exact ⟨_, _, rfl, rfl, rfl⟩)

/-- Witness for C7: `formBasic` has no severity field and its persisted
row carries severity `"Medium"`. -/
theorem complaint_severity_defaults_medium_witness :
    ∃ (res : ComplaintRes) (c : Complaint),
      complaintPost dbAlice [] 1 formBasic true 7 = some res ∧
      res.db.complaints = dbAlice.complaints ++ [c] ∧
      c.severity = "Medium" :=
  complaint_severity_defaults_medium dbAlice [] 1 formBasic true 7
    (by decide) (by decide)

/-- **C8.** When the form carries a file with a non-empty filename, the
upload is written at `static/uploads/` followed by the client-supplied
filename verbatim and the persisted row's `proof_file` is
`"uploads/" ++ filename`; when no file is present, nothing is written and
`proof_file` is null. -/
theorem complaint_proof_file_verbatim (db : DB) (fs : FS) (uid : Nat)
    (form : ComplaintForm) (emailOk : Bool) (now : Nat)
    (hsubj : form.subject.isSome) :
    (∀ f : UploadedFile, form.proof_file = some f → f.filename ≠ "" →
       ∃ (res : ComplaintRes) (c : Complaint),
         complaintPost db fs uid form emailOk now = some res ∧
         res.db.complaints = db.complaints ++ [c] ∧
         c.proof_file = some ("uploads/" ++ f.filename) ∧
         res.fs = ("static/uploads/" ++ f.filename, f.content) :: fs) ∧
    (form.proof_file = none →
       ∃ (res : ComplaintRes) (c : Complaint),
         complaintPost db fs uid form emailOk now = some res ∧
         res.db.complaints = db.complaints ++ [c] ∧
         c.proof_file = none ∧
         res.fs = fs) := by
  obtain ⟨subj, hs⟩ := Option.isSome_iff_exists.mp hsubj
  constructor
  · intro f hf hname
    have hb : (f.filename != "") = true := by simpa using hname
    cases emailOk <;>
      (simp only [complaintPost, complaintPersist, hs, hf, hb, if_true]
       exact ⟨_, _, rfl, rfl, rfl, rfl⟩)
  · intro hf
    cases emailOk <;>
      (simp only [complaintPost, complaintPersist, hs, hf]
       exact ⟨_, _, rfl, rfl, rfl, rfl⟩)

/-- Witness for C8: `formAnon`'s upload `evidence.png` lands at
`static/uploads/evidence.png` with `proof_file = "uploads/evidence.png"`,
and `formBasic` (no file) stores a null `proof_file` and leaves the
filesystem untouched. -/
theorem complaint_proof_file_verbatim_witness :
    (∃ (res : ComplaintRes) (c : Complaint),
       complaintPost dbAlice [] 1 formAnon true 7 = some res ∧
       res.db.complaints = dbAlice.complaints ++ [c] ∧
       c.proof_file = some ("uploads/" ++ "evidence.png") ∧
       res.fs = [("static/uploads/" ++ "evidence.png", "bytes")]) ∧
    (∃ (res : ComplaintRes) (c : Complaint),
       complaintPost dbAlice [] 1 formBasic true 7 = some res ∧
       res.db.complaints = dbAlice.complaints ++ [c] ∧
       c.proof_file = none ∧
       res.fs = []) :=
  ⟨(complaint_proof_file_verbatim dbAlice [] 1 formAnon true 7 (by decide)).1
     { filename := "evidence.png", content := "bytes" } rfl (by decide),
   (complaint_proof_file_verbatim dbAlice [] 1 formBasic true 7 (by decide)).2
     rfl⟩

theorem dictSum_foldl_dictInsert (keys : List String)
    (acc : List (String × Nat)) :
    dictSum (keys.foldl dictInsert acc) = dictSum acc := by
  induction keys generalizing acc with
  | nil => rfl
  | cons k keys ih =>
      rw [List.foldl_cons, ih]
      unfold dictInsert
      split
      · rfl
      · simp [dictSum]

theorem dictSum_dictInit (keys : List String) :
    dictSum (dictInit keys) = 0 :=
  dictSum_foldl_dictInsert keys []

/-- **C3.** Sequential vote submission: when a `Vote` row with the
submitted poll id and the session user's id already exists, the
submission is rejected and the vote store is unchanged; otherwise exactly
one new `Vote` row carrying that `(poll_id, user_id)` is appended. -/
theorem vote_duplicate_rejected (db : DB) (uid poll_id : Nat)
    (opt : String) :
    ((∃ v ∈ db.votes, v.poll_id = poll_id ∧ v.user_id = some uid) →
       (pollsPost db uid poll_id opt).db.votes = db.votes) ∧
    ((∀ v ∈ db.votes, ¬ (v.poll_id = poll_id ∧ v.user_id = some uid)) →
       (pollsPost db uid poll_id opt).db.votes
         = db.votes ++ [{ id := db.nextVoteId, poll_id := poll_id,
                          option := opt, user_id := some uid }]) := by
  have hv := ensureSamplePoll_votes db
  have hn := ensureSamplePoll_nextVoteId db
  constructor
  · rintro ⟨v, hvm, hp, hu⟩
    have hfind : (db.votes.find?
        (fun v => v.poll_id == poll_id && v.user_id == some uid)).isSome := by
      rw [List.find?_isSome]
      exact ⟨v, hvm, by simp [hp, hu]⟩
    obtain ⟨w, hw⟩ := Option.isSome_iff_exists.mp hfind
    simp [pollsPost, hv, hw]
  · intro h
    have hfind : db.votes.find?
        (fun v => v.poll_id == poll_id && v.user_id == some uid) = none := by
      rw [List.find?_eq_none]
      intro x hx
      simp only [Bool.and_eq_true, beq_iff_eq]
      exact fun hc => h x hx ⟨hc.1, hc.2⟩
    simp [pollsPost, hv, hn, hfind]

/-- Witness for C3: in `dbVoted`, Alice (user 1) voting again on poll 1
is rejected with the store unchanged, while user 2's first vote appends
exactly one row with `(poll_id, user_id) = (1, 2)`. -/
theorem vote_duplicate_rejected_witness :
    (pollsPost dbVoted 1 1 "B").db.votes = dbVoted.votes ∧
    (pollsPost dbVoted 2 1 "B").db.votes
      = dbVoted.votes ++ [{ id := 2, poll_id := 1, option := "B",
                            user_id := some 2 }] :=
  ⟨(vote_duplicate_rejected dbVoted 1 1 "B").1
     ⟨{ id := 1, poll_id := 1, option := "A", user_id := some 1 },
      by decide, rfl, rfl⟩,
   (vote_duplicate_rejected dbVoted 2 1 "B").2 (by decide)⟩

/-- **C9.** The vote handler stores the submitted option string verbatim,
with no validation against the poll's option strings; and the results
view is completely unchanged by a stored vote whose option matches none
of the poll's four options — such a vote is silently excluded from every
reported count. -/
theorem vote_option_unvalidated (db : DB) (uid poll_id : Nat)
    (opt : String) :
    ((∀ v ∈ db.votes, ¬ (v.poll_id = poll_id ∧ v.user_id = some uid)) →
       ∃ w : Vote,
         (pollsPost db uid poll_id opt).db.votes = db.votes ++ [w] ∧
         w.option = opt ∧ w.poll_id = poll_id ∧ w.user_id = some uid) ∧
    (∀ (poll : Poll) (v : Vote),
       db.polls.find? (fun p => p.id == poll_id) = some poll →
       v.poll_id = poll_id →
       v.option ∉ pollOptions poll →
       poll_results { db with votes := db.votes ++ [v] } poll_id
         = poll_results db poll_id) := by
  constructor
  · intro h
    have hv := ensureSamplePoll_votes db
    have hn := ensureSamplePoll_nextVoteId db
    have hfind : db.votes.find?
        (fun v => v.poll_id == poll_id && v.user_id == some uid) = none := by
      rw [List.find?_eq_none]
      intro x hx
      simp only [Bool.and_eq_true, beq_iff_eq]
      exact fun hc => h x hx ⟨hc.1, hc.2⟩
    refine ⟨{ id := db.nextVoteId, poll_id := poll_id, option := opt,
              user_id := some uid }, ?_, rfl, rfl, rfl⟩
    simp [pollsPost, hv, hn, hfind]
  · intro poll v hf hvp hvo
    have hpolls : ({ db with votes := db.votes ++ [v] } : DB).polls
        = db.polls := rfl
    simp only [poll_results, hpolls, hf]
    have hfilter : (db.votes ++ [v]).filter (fun w => w.poll_id == poll_id)
        = db.votes.filter (fun w => w.poll_id == poll_id) ++ [v] := by
      rw [List.filter_append]
      simp [List.filter_cons, hvp]
    have htal : tally
        (db.votes.filter (fun w => w.poll_id == poll_id) ++ [v])
        (dictInit (pollOptions poll))
          = dictIncr (tally (db.votes.filter (fun w => w.poll_id == poll_id))
              (dictInit (pollOptions poll))) v.option := by
      unfold tally
      rw [List.foldl_append]
      rfl
    have hnm : v.option ∉ (tally
        (db.votes.filter (fun w => w.poll_id == poll_id))
        (dictInit (pollOptions poll))).map Prod.fst := by
      rw [tally_keys, mem_dictInit_keys]
      exact hvo
    rw [hfilter, htal, dictIncr_not_mem _ _ hnm]

/-- Witness for C9: an arbitrary option string `"Banana"` is stored
verbatim for a first-time voter, and adding a vote with option `"X"`
(matching none of poll 1's options) leaves the results view of
`dbForeignVote` unchanged. -/
theorem vote_option_unvalidated_witness :
    (∃ w : Vote,
       (pollsPost dbAlice 1 1 "Banana").db.votes = dbAlice.votes ++ [w] ∧
       w.option = "Banana" ∧ w.poll_id = 1 ∧ w.user_id = some 1) ∧
    poll_results
        { dbForeignVote with
          votes := dbForeignVote.votes
            ++ [{ id := 2, poll_id := 1, option := "X", user_id := some 2 }] }
        1
      = poll_results dbForeignVote 1 :=
  ⟨(vote_option_unvalidated dbAlice 1 1 "Banana").1 (by decide),
   (vote_option_unvalidated dbForeignVote 1 1 "Banana").2 pollOne
     { id := 2, poll_id := 1, option := "X", user_id := some 2 }
     (by decide) rfl (by decide)⟩

/-- Counterexample to C4 as stated: poll 1 of `dbForeignVote` stores
exactly one `Vote` row, whose option `"E"` matches none of the poll's
four options; the results view reports counts summing to `0`, so the sum
of the reported counts differs from the number of stored `Vote` rows for
the poll. -/
theorem poll_results_sum_mismatch :
    (poll_results dbForeignVote 1).map (fun r => dictSum r.2)
      ≠ some ((dbForeignVote.votes.filter
          (fun v => v.poll_id == 1)).length) := by
  decide

/-- **C4 (amended).** For every poll found by the results view, the
reported count of each of the poll's four option strings equals exactly
the number of stored `Vote` rows for that poll with that option; and the
sum of the counts shown equals the number of stored `Vote` rows for that
poll whose option is among the poll's four option strings (a stored vote
with any other option is counted nowhere — the unrestricted total of C4
fails, see the counterexample). -/
theorem poll_results_tally_exact (db : DB) (poll_id : Nat) (poll : Poll)
    (results : List (String × Nat))
    (h : poll_results db poll_id = some (poll, results)) :
    (∀ s ∈ pollOptions poll,
       dictGet results s
         = some (((db.votes.filter (fun v => v.poll_id == poll_id)).filter
             (fun v => v.option == s)).length)) ∧
    dictSum results
      = ((db.votes.filter (fun v => v.poll_id == poll_id)).filter
          (fun v => decide (v.option ∈ pollOptions poll))).length := by
  cases hf : db.polls.find? (fun p => p.id == poll_id) with
  | none =>
      rw [poll_results, hf] at h
      exact absurd h (by simp)
  | some q =>
      rw [poll_results, hf] at h
      simp only [Option.some.injEq, Prod.mk.injEq] at h
      obtain ⟨hq, hr⟩ := h
      subst hq
      subst hr
      constructor
      · intro s hs
        rw [dictGet_tally, dictInit_get, if_pos hs]
        simp
      · rw [dictSum_tally _ _ (dictInit_keys_nodup _), dictSum_dictInit]
        rw [Nat.zero_add]
        congr 1
        apply List.filter_congr
        intro v _
        exact decide_eq_decide.mpr (mem_dictInit_keys _ v.option)

/-- Witness for C4 (amended): for `dbVoted` (one vote, option `"A"`) the
results view reports `A ↦ 1, B ↦ 0, C ↦ 0, D ↦ 0`, each count matching
the stored rows, and the visible counts sum to the one valid vote. -/
theorem poll_results_tally_exact_witness :
    (∀ s ∈ pollOptions pollOne,
       dictGet [("A", 1), ("B", 0), ("C", 0), ("D", 0)] s
         = some (((dbVoted.votes.filter (fun v => v.poll_id == 1)).filter
             (fun v => v.option == s)).length)) ∧
    dictSum [("A", 1), ("B", 0), ("C", 0), ("D", 0)]
      = ((dbVoted.votes.filter (fun v => v.poll_id == 1)).filter
          (fun v => decide (v.option ∈ pollOptions pollOne))).length :=
  poll_results_tally_exact dbVoted 1 pollOne
    [("A", 1), ("B", 0), ("C", 0), ("D", 0)] (by decide)

end CampusShield
